import Mathlib

/-!
Verification development for a small MCP todo-list service (`server.py`).

The service keeps, per session key, a list of todo records; the single tool
`write_todos` normalizes its raw input list, atomically replaces the stored
list for the calling session, and returns a human-readable rendering produced
by `_format_todos`.  `_get_todos` is the lazy-creating read of the per-session
store.

The embedding models Python runtime values with the inductive type `Value`
(the shapes a JSON-ish tool payload can take), Python truthiness with
`Value.truthy`, and `dict.get` with `Value.getD`.  Dictionaries are modelled
as association lists with string keys; a Python dict with non-string keys
behaves identically here because the code only ever looks up string keys.
The module-level dict `_session_todos` becomes an explicit store value of
type `TodoStore` threaded through the operations.

Fallible spots of the Python code (attribute error from `.get` on a
non-dict, `TypeError` from hashing an unhashable dict key) are modelled by
`Option`-returning "checked" variants of the same functions; the unchecked
definitions mirror the source line by line.
-/

/-- Python runtime values as they can appear in a tool-call payload. -/
inductive Value where
  | vNone : Value
  | vBool : Bool → Value
  | vInt : Int → Value
  | vStr : String → Value
  | vList : List Value → Value
  | vDict : List (String × Value) → Value

/-- Python truthiness (`bool(x)`): `None`, `False`, `0`, `""`, `[]`, `{}` are falsy. -/
def Value.truthy : Value → Bool
  | .vNone => false
  | .vBool b => b
  | .vInt n => n != 0
  | .vStr s => s != ""
  | .vList xs => !xs.isEmpty
  | .vDict fs => !fs.isEmpty

/-- `isinstance(v, dict)`. -/
def Value.isDict : Value → Bool
  | .vDict _ => true
  | _ => false

/-- Python `v == s` for a string literal `s`: true exactly when `v` is that string. -/
def Value.beqStr (v : Value) (s : String) : Bool :=
  match v with
  | .vStr t => t == s
  | _ => false

/-- Whether a value is hashable in Python (lists and dicts are not). -/
def Value.hashable : Value → Bool
  | .vList _ => false
  | .vDict _ => false
  | _ => true

/-- First-match lookup in the field list of a dict. -/
def lookupField : List (String × Value) → String → Option Value
  | [], _ => none
  | (k, v) :: rest, key => if k == key then some v else lookupField rest key

/-- Total model of Python `v.get(key, dflt)`; on a non-dict it returns the
default (the real call would raise; `Value.get?` models that). -/
def Value.getD (v : Value) (key : String) (dflt : Value) : Value :=
  match v with
  | .vDict fs =>
    match lookupField fs key with
    | some x => x
    | none => dflt
  | _ => dflt

/-- Fallible model of Python `v.get(key, dflt)`: `none` models the
`AttributeError` raised when `v` is not a dict. -/
def Value.get? (v : Value) (key : String) (dflt : Value) : Option Value :=
  match v with
  | .vDict _ => some (v.getD key dflt)
  | _ => none

mutual

/-- Python `repr` of a value.  For scalars this is exact; for strings inside
containers the quoting is the common case `'...'` without escape handling
(never exercised by the service, which only ever renders scalar fields). -/
def pyRepr : Value → String
  | .vNone => "None"
  | .vBool b => if b then "True" else "False"
  | .vInt n => toString n
  | .vStr s => "'" ++ s ++ "'"
  | .vList xs => "[" ++ pyReprJoin xs ++ "]"
  | .vDict fs => "\x7b" ++ pyReprFields fs ++ "\x7d"

/-- Comma-joined `repr`s of list elements. -/
def pyReprJoin : List Value → String
  | [] => ""
  | [x] => pyRepr x
  | x :: y :: rest => pyRepr x ++ ", " ++ pyReprJoin (y :: rest)

/-- Comma-joined `repr(k): repr(v)` pairs of dict fields. -/
def pyReprFields : List (String × Value) → String
  | [] => ""
  | [(k, v)] => "'" ++ k ++ "': " ++ pyRepr v
  | (k, v) :: e :: rest => "'" ++ k ++ "': " ++ pyRepr v ++ ", " ++ pyReprFields (e :: rest)

end

/-- Python `str` of a value (what an f-string interpolation renders). -/
def pyStr : Value → String
  | .vStr s => s
  | v => pyRepr v

/-- Python `"\n".join(lines)`. -/
def joinLines : List String → String
  | [] => ""
  | [x] => x
  | x :: y :: rest => x ++ "\n" ++ joinLines (y :: rest)

/-- The per-session store `_session_todos : dict[str, list[dict]]`,
as an explicit value: `none` means the key is absent from the dict. -/
abbrev TodoStore : Type := String → Option (List Value)

/-- The store at process start: no session keys present. -/
def emptyStore : TodoStore := fun _ => none

/-- Dict assignment `_session_todos[key] = ts`. -/
def updateStore (st : TodoStore) (key : String) (ts : List Value) : TodoStore :=
  fun k2 => if k2 == key then some ts else st k2

/-- `_get_todos(session_key)`: read the session's list, inserting an empty
list first when the key is unseen.  Returns the updated store and the list. -/
def _get_todos (st : TodoStore) (session_key : String) : TodoStore × List Value :=
  match st session_key with
  | some ts => (st, ts)
  | none => (updateStore st session_key [], [])

/-- The validation loop of `write_todos` (source lines 75-94): skip non-dict
entries, extract `content`/`activeForm`/`status` with their defaults, skip
entries with falsy content, coerce unrecognized statuses to `"pending"`,
default a falsy `activeForm` to `content` (`active_form or content`). -/
def validateTodos : List Value → List Value
  | [] => []
  | todo :: rest =>
    if todo.isDict = false then validateTodos rest
    else
      let content := todo.getD "content" (Value.vStr "")
      let active_form := todo.getD "activeForm" (Value.vStr "")
      let status := todo.getD "status" (Value.vStr "pending")
      if content.truthy = false then validateTodos rest
      else
        let status2 :=
          if (status.beqStr "pending" || status.beqStr "in_progress" || status.beqStr "completed") = false
          then Value.vStr "pending" else status
        Value.vDict [("content", content),
                     ("activeForm", if active_form.truthy then active_form else content),
                     ("status", status2)] :: validateTodos rest

/-- The status-icon dict literal of `_format_todos` with its `.get(..., "[ ]")`
fallback.  Hashing of an unhashable status key is modelled in the checked
variant. -/
def statusIcon (status : Value) : String :=
  if status.beqStr "pending" then "[ ]"
  else if status.beqStr "in_progress" then "[~]"
  else if status.beqStr "completed" then "[x]"
  else "[ ]"

/-- One numbered line of the loop body of `_format_todos`:
`f"{i}. {status_icon} {active_form}"` when the status is `in_progress`,
`f"{i}. {status_icon} {content}"` otherwise. -/
def formatLine (i : Nat) (todo : Value) : String :=
  let status_icon := statusIcon (todo.getD "status" (Value.vStr "pending"))
  let content := todo.getD "content" (Value.vStr "")
  let active_form := todo.getD "activeForm" (Value.vStr "")
  let status := todo.getD "status" (Value.vStr "pending")
  if status.beqStr "in_progress"
  then toString i ++ ". " ++ status_icon ++ " " ++ pyStr active_form
  else toString i ++ ". " ++ status_icon ++ " " ++ pyStr content

/-- The `for i, todo in enumerate(todos, 1)` loop, starting at index `n`. -/
def formatLinesFrom : Nat → List Value → List String
  | _, [] => []
  | n, todo :: rest => formatLine n todo :: formatLinesFrom (n + 1) rest

/-- The numbered task lines of `_format_todos`, 1-indexed. -/
def formatLines (todos : List Value) : List String :=
  formatLinesFrom 1 todos

/-- `sum(1 for t in todos if t.get("status") == s)`: note the default of this
`.get` is `None`, not `"pending"`. -/
def countStatus (todos : List Value) (s : String) : Nat :=
  match todos with
  | [] => 0
  | t :: rest => (if (t.getD "status" Value.vNone).beqStr s then 1 else 0) + countStatus rest s

/-- The counts part of the summary f-string:
`f"{pending} pending, {in_progress} in progress, {completed} completed"`. -/
def countsPhrase (todos : List Value) : String :=
  toString (countStatus todos "pending") ++ " pending, " ++
  toString (countStatus todos "in_progress") ++ " in progress, " ++
  toString (countStatus todos "completed") ++ " completed"

/-- `_format_todos(todos)`: the empty-list sentence, or the header line, the
numbered lines, and the `"\nSummary: ..."` entry, joined with newlines. -/
def _format_todos (todos : List Value) : String :=
  if todos.isEmpty then "Todo list is empty."
  else joinLines (("Todo List:" :: formatLines todos) ++
                  ["\n" ++ ("Summary: " ++ countsPhrase todos)])

/-- `write_todos(todos)` for an already-resolved session key (line 73 resolves
the key from the context before the body runs): validate, store, format. -/
def write_todos (st : TodoStore) (session_key : String) (todos : List Value) :
    TodoStore × String :=
  let validated_todos := validateTodos todos
  (updateStore st session_key validated_todos, _format_todos validated_todos)

/-! ### Spec-side definitions

These follow the wording of the specification's normalization and
formatting rules, to be compared with the source-translated definitions. -/

/-- Spec wording of the per-entry normalization: non-dict entries are
skipped; entries whose extracted content (defaulting to empty string) is
empty are skipped; `activeForm` defaults to `content` when absent or empty;
`status` is forced to `"pending"` unless it is one of the three recognized
values. -/
def spec_normalize_entry (v : Value) : Option Value :=
  if v.isDict = false then none
  else
    let content := v.getD "content" (Value.vStr "")
    if content.truthy = false then none
    else
      let af := v.getD "activeForm" (Value.vStr "")
      let status := v.getD "status" (Value.vStr "pending")
      some (Value.vDict
        [("content", content),
         ("activeForm", if af.truthy = false then content else af),
         ("status",
          if status.beqStr "pending" || status.beqStr "in_progress" || status.beqStr "completed"
          then status else Value.vStr "pending")])

/-- Spec wording of the icon mapping: pending to `[ ]`, in_progress to
`[~]`, completed to `[x]`, any other status falls back to `[ ]`. -/
def spec_icon (status : Value) : String :=
  if status.beqStr "pending" then "[ ]"
  else if status.beqStr "in_progress" then "[~]"
  else if status.beqStr "completed" then "[x]"
  else "[ ]"

/-- Spec wording of a rendered task line at 1-based position `i`:
`"{i}. {status_icon} {label}"`, the label being `activeForm` when the
status is `in_progress` and `content` otherwise. -/
def spec_line (i : Nat) (t : Value) : String :=
  let status := t.getD "status" (Value.vStr "pending")
  let label :=
    if status.beqStr "in_progress" then t.getD "activeForm" (Value.vStr "")
    else t.getD "content" (Value.vStr "")
  toString i ++ ". " ++ spec_icon status ++ " " ++ pyStr label

/-- Spec wording of a well-formed stored task: non-empty (truthy) content,
non-empty (truthy) activeForm, and a status that is one of the three
recognized values. -/
def taskValid (t : Value) : Bool :=
  (t.getD "content" (Value.vStr "")).truthy
  && (t.getD "activeForm" (Value.vStr "")).truthy
  && ((t.getD "status" Value.vNone).beqStr "pending"
      || (t.getD "status" Value.vNone).beqStr "in_progress"
      || (t.getD "status" Value.vNone).beqStr "completed")

/-! ### Operation sequences over the store -/

/-- One store operation: a read (`_get_todos`) or a whole-list replace
(the store mutation of `write_todos`). -/
inductive StoreOp where
  | opGet : String → StoreOp
  | opReplace : String → List Value → StoreOp

/-- Apply one operation to the store, keeping only the store component. -/
def applyOp (st : TodoStore) : StoreOp → TodoStore
  | .opGet k => (_get_todos st k).1
  | .opReplace k raw => (write_todos st k raw).1

/-- Run a sequence of operations from a given store. -/
def runOps (st : TodoStore) (ops : List StoreOp) : TodoStore :=
  ops.foldl applyOp st

/-! ### Checked (fallibility-aware) variants

The same functions with every spot where the Python code could raise
modelled in `Option`: `.get` on a non-dict raises `AttributeError`, and
using an unhashable value as a dict-lookup key raises `TypeError`. -/

/-- The validation loop with each `todo.get(...)` fallible. -/
def validateTodosChecked : List Value → Option (List Value)
  | [] => some []
  | todo :: rest =>
    if todo.isDict = false then validateTodosChecked rest
    else do
      let content ← todo.get? "content" (Value.vStr "")
      let active_form ← todo.get? "activeForm" (Value.vStr "")
      let status ← todo.get? "status" (Value.vStr "pending")
      if content.truthy = false then validateTodosChecked rest
      else
        let status2 :=
          if (status.beqStr "pending" || status.beqStr "in_progress" || status.beqStr "completed") = false
          then Value.vStr "pending" else status
        let rest2 ← validateTodosChecked rest
        pure (Value.vDict [("content", content),
                           ("activeForm", if active_form.truthy then active_form else content),
                           ("status", status2)] :: rest2)

/-- The icon lookup with the hashing of the key made explicit: looking up an
unhashable key in the icon dict literal raises `TypeError`. -/
def statusIconChecked (status : Value) : Option String :=
  if status.hashable = false then none else some (statusIcon status)

/-- One line of the format loop with each `todo.get(...)` and the icon
lookup fallible. -/
def formatLineChecked (i : Nat) (todo : Value) : Option String := do
  let statusKey ← todo.get? "status" (Value.vStr "pending")
  let status_icon ← statusIconChecked statusKey
  let content ← todo.get? "content" (Value.vStr "")
  let active_form ← todo.get? "activeForm" (Value.vStr "")
  if statusKey.beqStr "in_progress"
  then pure (toString i ++ ". " ++ status_icon ++ " " ++ pyStr active_form)
  else pure (toString i ++ ". " ++ status_icon ++ " " ++ pyStr content)

/-- The enumerate loop with fallible lines. -/
def formatLinesFromChecked : Nat → List Value → Option (List String)
  | _, [] => some []
  | n, todo :: rest => do
    let l ← formatLineChecked n todo
    let ls ← formatLinesFromChecked (n + 1) rest
    pure (l :: ls)

/-- The summary count with each `t.get("status")` fallible. -/
def countStatusChecked (todos : List Value) (s : String) : Option Nat :=
  match todos with
  | [] => some 0
  | t :: rest => do
    let v ← t.get? "status" Value.vNone
    let n ← countStatusChecked rest s
    pure ((if v.beqStr s then 1 else 0) + n)

/-- `_format_todos` with every fallible spot explicit. -/
def formatTodosChecked (todos : List Value) : Option String :=
  if todos.isEmpty then some "Todo list is empty."
  else do
    let ls ← formatLinesFromChecked 1 todos
    let p ← countStatusChecked todos "pending"
    let ip ← countStatusChecked todos "in_progress"
    let c ← countStatusChecked todos "completed"
    pure (joinLines (("Todo List:" :: ls) ++
      ["\n" ++ ("Summary: " ++ (toString p ++ " pending, " ++ toString ip ++ " in progress, " ++ toString c ++ " completed"))]))

/-- `write_todos` with every fallible spot of its body explicit: `none`
would mean the tool call raises instead of returning a reply string. -/
def writeTodosChecked (st : TodoStore) (session_key : String) (todos : List Value) :
    Option (TodoStore × String) := do
  let validated ← validateTodosChecked todos
  let out ← formatTodosChecked validated
  pure (updateStore st session_key validated, out)

/-- The shape of a record produced by normalization: exactly the three
fields in order, truthy content and activeForm, a recognized status string. -/
def isNormTask (t : Value) : Prop :=
  ∃ c a s, t = Value.vDict [("content", c), ("activeForm", a), ("status", Value.vStr s)]
    ∧ c.truthy = true ∧ a.truthy = true
    ∧ (s = "pending" ∨ s = "in_progress" ∨ s = "completed")

/-- Invariant of the session store: every stored task of every session
satisfies the normalization rules. -/
def storeOk (st : TodoStore) : Prop :=
  ∀ k ts, st k = some ts → ∀ t ∈ ts, taskValid t = true

/-- Accumulator pass for `splitLines`. -/
def splitLinesAux : List Char → List Char → List String
  | [], acc => [String.mk acc.reverse]
  | c :: rest, acc =>
    if c = '\n' then String.mk acc.reverse :: splitLinesAux rest []
    else splitLinesAux rest (c :: acc)

/-- The lines of a string: split on every newline character (an executable
counterpart of splitting on `"\n"`). -/
def splitLines (s : String) : List String :=
  splitLinesAux s.data []

/-- The four-task scenario of the spec's summary-line test: A and B pending,
C in progress, D completed. -/
def scenarioTasks : List Value :=
  [Value.vDict [("content", Value.vStr "A"), ("status", Value.vStr "pending")],
   Value.vDict [("content", Value.vStr "B"), ("status", Value.vStr "pending")],
   Value.vDict [("content", Value.vStr "C"), ("status", Value.vStr "in_progress")],
   Value.vDict [("content", Value.vStr "D"), ("status", Value.vStr "completed")]]

/-! ### Helper lemmas -/

/-- Flipping a negated boolean condition in an `if`. -/
theorem if_flip {α : Type} (b : Bool) (x y : α) :
    (if b = false then y else x) = if b then x else y := by
  cases b <;> simp

/-- A value that compares equal to a string literal is that string. -/
theorem beqStr_eq (v : Value) (s : String) (h : v.beqStr s = true) :
    v = Value.vStr s := by
  cases v <;> simp_all [Value.beqStr]

/-- One step of the validation loop is one step of the spec's filter-map. -/
theorem validate_step (todo : Value) (rest : List Value) :
    validateTodos (todo :: rest) =
      match spec_normalize_entry todo with
      | none => validateTodos rest
      | some t => t :: validateTodos rest := by
  simp only [validateTodos, spec_normalize_entry]
  by_cases hd : todo.isDict = false
  · simp [hd]
  · by_cases hc : (todo.getD "content" (Value.vStr "")).truthy = false
    · simp [hd, hc]
    · by_cases hp : ((todo.getD "status" (Value.vStr "pending")).beqStr "pending"
          || (todo.getD "status" (Value.vStr "pending")).beqStr "in_progress"
          || (todo.getD "status" (Value.vStr "pending")).beqStr "completed") = true
      · by_cases ha : (todo.getD "activeForm" (Value.vStr "")).truthy = true
        · simp [hd, hc, hp, ha]
        · simp [hd, hc, hp, ha]
      · by_cases ha : (todo.getD "activeForm" (Value.vStr "")).truthy = true
        · simp [hd, hc, hp, ha]
        · simp [hd, hc, hp, ha]

/-- The validation loop equals the filter-map of the spec's per-entry
normalization. -/
theorem validateTodos_eq_filterMap (l : List Value) :
    validateTodos l = l.filterMap spec_normalize_entry := by
  induction l with
  | nil => rfl
  | cons todo rest ih =>
    rw [validate_step]
    cases h : spec_normalize_entry todo <;> simp [List.filterMap_cons, h, ih]

/-- Normalizing an already-normalized record (the dict shape built by the
loop) returns it unchanged. -/
theorem spec_entry_norm_dict (c a s : Value) (hc : c.truthy = true) (ha : a.truthy = true)
    (hs : (s.beqStr "pending" || s.beqStr "in_progress" || s.beqStr "completed") = true) :
    spec_normalize_entry (Value.vDict [("content", c), ("activeForm", a), ("status", s)]) =
      some (Value.vDict [("content", c), ("activeForm", a), ("status", s)]) := by
  unfold spec_normalize_entry
  simp [Value.isDict, Value.getD, lookupField, hc, ha, hs]

/-- Every output of the spec's per-entry normalization is a normalized
record: the three fields in order, truthy content and activeForm, and a
recognized status string. -/
theorem spec_entry_shape (v t : Value) (h : spec_normalize_entry v = some t) :
    ∃ c a s, t = Value.vDict [("content", c), ("activeForm", a), ("status", Value.vStr s)]
      ∧ c.truthy = true ∧ a.truthy = true
      ∧ (s = "pending" ∨ s = "in_progress" ∨ s = "completed") := by
  unfold spec_normalize_entry at h
  by_cases hd : v.isDict = false
  · rw [if_pos hd] at h
    exact absurd h (by simp)
  · rw [if_neg hd] at h
    by_cases hc : (v.getD "content" (Value.vStr "")).truthy = false
    · rw [if_pos hc] at h
      exact absurd h (by simp)
    · rw [if_neg hc] at h
      simp only [] at h
      have hct : (v.getD "content" (Value.vStr "")).truthy = true := by
        simpa using hc
      have hat : (if (v.getD "activeForm" (Value.vStr "")).truthy = false
          then v.getD "content" (Value.vStr "")
          else v.getD "activeForm" (Value.vStr "")).truthy = true := by
        by_cases ha : (v.getD "activeForm" (Value.vStr "")).truthy = false
        · rw [if_pos ha]; exact hct
        · rw [if_neg ha]; simpa using ha
      by_cases hp : ((v.getD "status" (Value.vStr "pending")).beqStr "pending"
          || (v.getD "status" (Value.vStr "pending")).beqStr "in_progress"
          || (v.getD "status" (Value.vStr "pending")).beqStr "completed") = true
      · have hsf : ∃ s, v.getD "status" (Value.vStr "pending") = Value.vStr s ∧
            (s = "pending" ∨ s = "in_progress" ∨ s = "completed") := by
          rw [Bool.or_eq_true, Bool.or_eq_true] at hp
          rcases hp with (h3 | h3) | h3
          · exact ⟨"pending", beqStr_eq _ _ h3, Or.inl rfl⟩
          · exact ⟨"in_progress", beqStr_eq _ _ h3, Or.inr (Or.inl rfl)⟩
          · exact ⟨"completed", beqStr_eq _ _ h3, Or.inr (Or.inr rfl)⟩
        rcases hsf with ⟨s, hse, hsmem⟩
        rw [if_pos hp, hse] at h
        exact ⟨_, _, s, (Option.some.inj h).symm, hct, hat, hsmem⟩
      · rw [if_neg hp] at h
        exact ⟨_, _, "pending", (Option.some.inj h).symm, hct, hat, Or.inl rfl⟩

/-- The spec's per-entry normalization fixes its own outputs. -/
theorem spec_entry_fix (v t : Value) (h : spec_normalize_entry v = some t) :
    spec_normalize_entry t = some t := by
  rcases spec_entry_shape v t h with ⟨c, a, s, ht, hc, ha, hs⟩
  subst ht
  apply spec_entry_norm_dict c a _ hc ha
  rcases hs with h1 | h1 | h1 <;> subst h1 <;> decide

/-- Reading the `content` field of a three-field record. -/
theorem getD_fields_content (c a s d : Value) :
    (Value.vDict [("content", c), ("activeForm", a), ("status", s)]).getD "content" d = c := rfl

/-- Reading the `activeForm` field of a three-field record. -/
theorem getD_fields_active (c a s d : Value) :
    (Value.vDict [("content", c), ("activeForm", a), ("status", s)]).getD "activeForm" d = a := rfl

/-- Reading the `status` field of a three-field record. -/
theorem getD_fields_status (c a s d : Value) :
    (Value.vDict [("content", c), ("activeForm", a), ("status", s)]).getD "status" d = s := rfl

/-- On a dict, the fallible `.get` returns the total one's result. -/
theorem get?_of_isDict (v : Value) (k : String) (d : Value) (h : v.isDict = true) :
    v.get? k d = some (v.getD k d) := by
  cases v <;> simp_all [Value.isDict, Value.get?]

/-- Every element of a validated list is a normalized record. -/
theorem mem_validate_norm (l : List Value) (t : Value) (h : t ∈ validateTodos l) :
    isNormTask t := by
  rw [validateTodos_eq_filterMap] at h
  rcases List.mem_filterMap.mp h with ⟨v, _, hv⟩
  exact spec_entry_shape v t hv

/-- Normalized records satisfy the stored-task validity predicate. -/
theorem taskValid_of_norm (t : Value) (h : isNormTask t) : taskValid t = true := by
  rcases h with ⟨c, a, s, ht, hc, ha, hs⟩
  subst ht
  rcases hs with h1 | h1 | h1 <;> subst h1 <;>
    simp [taskValid, getD_fields_content, getD_fields_active, getD_fields_status,
      Value.beqStr, hc, ha]

/-- The checked validation loop never fails and agrees with the loop: the
`isinstance` guard protects every `.get`. -/
theorem validateTodosChecked_eq (l : List Value) :
    validateTodosChecked l = some (validateTodos l) := by
  induction l with
  | nil => rfl
  | cons todo rest ih =>
    simp only [validateTodosChecked, validateTodos]
    by_cases hd : todo.isDict = false
    · simp [hd, ih]
    · have hdt : todo.isDict = true := by simpa using hd
      rw [if_neg hd, if_neg hd]
      simp only [get?_of_isDict _ _ _ hdt, Option.bind_eq_bind, Option.some_bind]
      by_cases hc : (todo.getD "content" (Value.vStr "")).truthy = false
      · simp [hc, ih]
      · simp [hc, ih]

/-- The fallible `.get` on a literal dict value. -/
theorem get?_dict (fs : List (String × Value)) (k : String) (d : Value) :
    (Value.vDict fs).get? k d = some ((Value.vDict fs).getD k d) := rfl

/-- On a normalized record, the checked line renderer never fails and
agrees with the plain one. -/
theorem formatLineChecked_eq (i : Nat) (t : Value) (h : isNormTask t) :
    formatLineChecked i t = some (formatLine i t) := by
  rcases h with ⟨c, a, s, ht, _, _, _⟩
  subst ht
  simp only [formatLineChecked, formatLine, get?_dict,
    getD_fields_content, getD_fields_active, getD_fields_status,
    statusIconChecked, Value.hashable, Bool.false_eq_true, if_false,
    Option.bind_eq_bind, Option.some_bind]
  by_cases hip : (Value.vStr s).beqStr "in_progress" = true <;> simp [hip]

/-- The checked enumerate loop never fails on normalized records. -/
theorem formatLinesFromChecked_eq (todos : List Value) :
    ∀ n, (∀ t ∈ todos, isNormTask t) →
      formatLinesFromChecked n todos = some (formatLinesFrom n todos) := by
  induction todos with
  | nil => intro n _; rfl
  | cons t rest ih =>
    intro n h
    simp only [formatLinesFromChecked, formatLinesFrom]
    rw [formatLineChecked_eq n t (h t (by simp))]
    simp [ih (n + 1) (fun x hx => h x (by simp [hx]))]

/-- The checked status counter never fails on normalized records. -/
theorem countStatusChecked_eq (todos : List Value) (s : String)
    (h : ∀ t ∈ todos, isNormTask t) :
    countStatusChecked todos s = some (countStatus todos s) := by
  induction todos with
  | nil => rfl
  | cons t rest ih =>
    have hdt : t.isDict = true := by
      rcases h t (by simp) with ⟨c, a, s0, ht, _⟩
      rw [ht]; rfl
    simp only [countStatusChecked, countStatus, get?_of_isDict _ _ _ hdt,
      Option.bind_eq_bind, Option.some_bind]
    rw [ih (fun x hx => h x (by simp [hx]))]
    rfl

/-- The checked formatter never fails on a list of normalized records and
agrees with the plain formatter. -/
theorem formatTodosChecked_eq (todos : List Value) (h : ∀ t ∈ todos, isNormTask t) :
    formatTodosChecked todos = some (_format_todos todos) := by
  by_cases he : todos.isEmpty
  · simp [formatTodosChecked, _format_todos, he]
  · simp only [formatTodosChecked, _format_todos, he, Bool.false_eq_true, if_false]
    rw [formatLinesFromChecked_eq todos 1 h,
      countStatusChecked_eq todos "pending" h,
      countStatusChecked_eq todos "in_progress" h,
      countStatusChecked_eq todos "completed" h]
    simp [formatLines, countsPhrase]

/-- Join of a list with a nonempty tail. -/
theorem joinLines_cons (x : String) (xs : List String) (h : xs ≠ []) :
    joinLines (x :: xs) = x ++ "\n" ++ joinLines xs := by
  cases xs with
  | nil => exact absurd rfl h
  | cons y t => rfl

/-- Join of a nonempty list with one line appended. -/
theorem joinLines_append_last (xs : List String) (y : String) (h : xs ≠ []) :
    joinLines (xs ++ [y]) = joinLines xs ++ "\n" ++ y := by
  induction xs with
  | nil => exact absurd rfl h
  | cons a t ih =>
    cases t with
    | nil => rfl
    | cons b t2 =>
      have h2 : (b :: t2 : List String) ≠ [] := by simp
      have e1 : ((a :: b :: t2) ++ [y]) = a :: ((b :: t2) ++ [y]) := rfl
      rw [e1, joinLines_cons a _ (by simp), ih h2, joinLines_cons a _ h2]
      simp [String.append_assoc]

/-- Looking up the key just written. -/
theorem updateStore_same (st : TodoStore) (k : String) (ts : List Value) :
    updateStore st k ts k = some ts := by
  simp [updateStore]

/-- Looking up a different key after a write. -/
theorem updateStore_other (st : TodoStore) (k k2 : String) (ts : List Value)
    (h : k2 ≠ k) : updateStore st k ts k2 = st k2 := by
  simp [updateStore, h]

/-- The two icon definitions coincide. -/
theorem statusIcon_eq_spec_icon (s : Value) : statusIcon s = spec_icon s := rfl

/-- The source's line renderer agrees with the spec's description of a line. -/
theorem formatLine_eq_spec_line (i : Nat) (t : Value) : formatLine i t = spec_line i t := by
  simp only [formatLine, spec_line, statusIcon_eq_spec_icon]
  by_cases hip : (t.getD "status" (Value.vStr "pending")).beqStr "in_progress" = true <;>
    simp [hip]

/-- Indexing the enumerate loop: the line at offset `i` renders the task at
offset `i` with 1-based number `n + i`. -/
theorem formatLinesFrom_get (todos : List Value) :
    ∀ n i, (formatLinesFrom n todos)[i]? = (todos[i]?).map (fun t => formatLine (n + i) t) := by
  induction todos with
  | nil => intro n i; simp [formatLinesFrom]
  | cons t rest ih =>
    intro n i
    cases i with
    | zero => simp [formatLinesFrom]
    | succ j =>
      simp only [formatLinesFrom, List.getElem?_cons_succ, ih (n + 1) j]
      simp only [show n + 1 + j = n + (j + 1) from by omega]

/-- The empty store satisfies the invariant. -/
theorem storeOk_empty : storeOk emptyStore := by
  intro k ts h t ht
  simp [emptyStore] at h

/-- Updating one key with valid tasks preserves the invariant. -/
theorem storeOk_update_valid (st : TodoStore) (k : String) (ts : List Value)
    (hst : storeOk st) (hts : ∀ t ∈ ts, taskValid t = true) :
    storeOk (updateStore st k ts) := by
  intro k2 ts2 h t ht
  by_cases hk : k2 = k
  · subst hk
    rw [updateStore_same] at h
    exact hts t ((Option.some.inj h) ▸ ht)
  · rw [updateStore_other st k k2 ts hk] at h
    exact hst k2 ts2 h t ht

/-- Each store operation preserves the invariant. -/
theorem storeOk_apply (st : TodoStore) (op : StoreOp) (h : storeOk st) :
    storeOk (applyOp st op) := by
  cases op with
  | opGet k =>
    simp only [applyOp, _get_todos]
    cases hk : st k with
    | some ts => exact h
    | none => exact storeOk_update_valid st k [] h (by simp)
  | opReplace k raw =>
    simp only [applyOp, write_todos]
    exact storeOk_update_valid st k _ h
      (fun t ht => taskValid_of_norm t (mem_validate_norm raw t ht))

/-- Any operation sequence from an invariant-satisfying store preserves it. -/
theorem storeOk_runOps (ops : List StoreOp) : ∀ st, storeOk st → storeOk (runOps st ops) := by
  induction ops with
  | nil => intro st h; exact h
  | cons op rest ih =>
    intro st h
    exact ih (applyOp st op) (storeOk_apply st op h)

/-! ### Claim theorems -/

/-- Claim C1: for every input list of raw task values, the list stored and
returned by `write_todos` (the replace operation) equals the filter-map of
the input in input order: non-dict entries are skipped, entries with empty
extracted content are skipped, `activeForm` defaults to `content` when
absent or empty, and unrecognized statuses are forced to `"pending"`. -/
theorem claim_c1_write_is_filterMap (st : TodoStore) (k : String) (raw : List Value) :
    (write_todos st k raw).1 k = some (raw.filterMap spec_normalize_entry)
    ∧ (write_todos st k raw).2 = _format_todos (raw.filterMap spec_normalize_entry) := by
  constructor
  · simp [write_todos, updateStore_same, validateTodos_eq_filterMap]
  · simp [write_todos, validateTodos_eq_filterMap]

/-- Claim C2: after `replace(k, A)` then `replace(k, B)`, `get(k)` equals
the normalization of `B` exactly: whole-list replacement, nothing of `A`
survives. -/
theorem claim_c2_full_replace (st : TodoStore) (k : String) (A B : List Value) :
    (_get_todos ((write_todos ((write_todos st k A).1) k B).1) k).2 = validateTodos B := by
  simp [write_todos, _get_todos, updateStore_same]

/-- Claim C3: a replace on one key does not change the result of `get` on
any other key. -/
theorem claim_c3_session_isolation (st : TodoStore) (k1 k2 : String) (A : List Value)
    (h : k1 ≠ k2) :
    (_get_todos ((write_todos st k1 A).1) k2).2 = (_get_todos st k2).2 := by
  have e : (write_todos st k1 A).1 k2 = st k2 := by
    simp only [write_todos]
    exact updateStore_other st k1 k2 _ (fun e2 => h e2.symm)
  cases hk : st k2 with
  | some ts => simp [_get_todos, e, hk]
  | none => simp [_get_todos, e, hk]

/-- Witness for claim C3 at concrete keys and input. -/
theorem claim_c3_witness :
    ("s1" : String) ≠ "s2"
    ∧ (_get_todos ((write_todos emptyStore "s1" [Value.vDict [("content", Value.vStr "A")]]).1) "s2").2
      = (_get_todos emptyStore "s2").2 :=
  ⟨by decide, claim_c3_session_isolation emptyStore "s1" "s2"
    [Value.vDict [("content", Value.vStr "A")]] (by decide)⟩

/-- Claim C4: after any sequence of get/replace operations from the initial
empty store, every task in every stored list satisfies the normalization
rules: truthy content, a recognized status, truthy activeForm. -/
theorem claim_c4_store_invariant (ops : List StoreOp) (k : String) (ts : List Value)
    (h : runOps emptyStore ops k = some ts) (t : Value) (ht : t ∈ ts) :
    taskValid t = true :=
  storeOk_runOps ops emptyStore storeOk_empty k ts h t ht

/-- Witness for claim C4 on a concrete operation sequence. -/
theorem claim_c4_witness :
    runOps emptyStore [StoreOp.opReplace "s" [Value.vDict [("content", Value.vStr "A")]]] "s"
      = some [Value.vDict [("content", Value.vStr "A"), ("activeForm", Value.vStr "A"),
              ("status", Value.vStr "pending")]]
    ∧ taskValid (Value.vDict [("content", Value.vStr "A"), ("activeForm", Value.vStr "A"),
              ("status", Value.vStr "pending")]) = true :=
  ⟨rfl, claim_c4_store_invariant
    [StoreOp.opReplace "s" [Value.vDict [("content", Value.vStr "A")]]] "s"
    [Value.vDict [("content", Value.vStr "A"), ("activeForm", Value.vStr "A"),
      ("status", Value.vStr "pending")]] rfl
    (Value.vDict [("content", Value.vStr "A"), ("activeForm", Value.vStr "A"),
      ("status", Value.vStr "pending")]) (List.mem_singleton.mpr rfl)⟩

/-- Claim C5: `write_todos` never fails for any input shape: with every
fallible Python operation made explicit, the checked semantics always
returns `some`, agreeing with the total semantics — the call completes with
a reply string and malformed entries are dropped, not errored. -/
theorem claim_c5_never_fails (st : TodoStore) (k : String) (raw : List Value) :
    writeTodosChecked st k raw = some (write_todos st k raw) := by
  simp only [writeTodosChecked, write_todos, validateTodosChecked_eq,
    Option.bind_eq_bind, Option.some_bind]
  rw [formatTodosChecked_eq (validateTodos raw) (fun t ht => mem_validate_norm raw t ht)]
  rfl

/-- Claim C6: reading a key with no prior write does not fail: it returns
the empty list, stores the empty list for that key as a side effect, and
formatting that result yields the empty-list sentence. -/
theorem claim_c6_empty_read (st : TodoStore) (k : String) (h : st k = none) :
    (_get_todos st k).2 = []
    ∧ (_get_todos st k).1 k = some []
    ∧ _format_todos (_get_todos st k).2 = "Todo list is empty." := by
  simp [_get_todos, h, updateStore_same, _format_todos]

/-- Witness for claim C6 on the initial store and a concrete key. -/
theorem claim_c6_witness :
    emptyStore "fresh" = none
    ∧ ((_get_todos emptyStore "fresh").2 = []
      ∧ (_get_todos emptyStore "fresh").1 "fresh" = some []
      ∧ _format_todos (_get_todos emptyStore "fresh").2 = "Todo list is empty.") :=
  ⟨rfl, claim_c6_empty_read emptyStore "fresh" rfl⟩

/-- Claim C7: for a non-empty list, the formatter's line for the task at
0-based offset `i` (1-based position `i + 1`) is
`"{i+1}. {status_icon} {label}"` with the icon mapping (pending `[ ]`,
in_progress `[~]`, completed `[x]`, fallback `[ ]`) and the label being
`activeForm` exactly when the status is `in_progress`, else `content`. -/
theorem claim_c7_line_format (todos : List Value) (i : Nat) (t : Value)
    (hne : todos ≠ []) (hi : todos[i]? = some t) :
    (formatLines todos)[i]? = some (spec_line (i + 1) t) := by
  rw [formatLines, formatLinesFrom_get todos 1 i, hi]
  simp [formatLine_eq_spec_line, Nat.add_comm]

/-- Witness for claim C7 on a concrete one-task list. -/
theorem claim_c7_witness :
    ([Value.vDict [("content", Value.vStr "T"), ("status", Value.vStr "in_progress")]] : List Value) ≠ []
    ∧ ([Value.vDict [("content", Value.vStr "T"), ("status", Value.vStr "in_progress")]] : List Value)[0]?
      = some (Value.vDict [("content", Value.vStr "T"), ("status", Value.vStr "in_progress")])
    ∧ (formatLines [Value.vDict [("content", Value.vStr "T"), ("status", Value.vStr "in_progress")]])[0]?
      = some (spec_line 1 (Value.vDict [("content", Value.vStr "T"), ("status", Value.vStr "in_progress")])) :=
  ⟨by simp, rfl, claim_c7_line_format
    [Value.vDict [("content", Value.vStr "T"), ("status", Value.vStr "in_progress")]] 0
    (Value.vDict [("content", Value.vStr "T"), ("status", Value.vStr "in_progress")])
    (by simp) rfl⟩

/-- Claim C8 counterexample: for the four-task scenario, no line of the
formatted output equals the bare counts phrase
`"2 pending, 1 in progress, 1 completed"` — so the summary line is not
exactly that phrase (the actual final line carries a `"Summary: "` prefix). -/
theorem claim_c8_counterexample :
    ((splitLines (write_todos emptyStore "s" scenarioTasks).2).contains
      "2 pending, 1 in progress, 1 completed") = false := by
  rfl

/-- Claim C8 amended: for the four-task scenario, the final line of the
formatted output is exactly `"Summary: 2 pending, 1 in progress, 1 completed"`
— the counts phrase, obtained by scanning the normalized list, prefixed with
`"Summary: "`. -/
theorem claim_c8_summary_line :
    (splitLines (write_todos emptyStore "s" scenarioTasks).2).getLast?
      = some ("Summary: " ++ "2 pending, 1 in progress, 1 completed")
    ∧ countsPhrase (validateTodos scenarioTasks) = "2 pending, 1 in progress, 1 completed" := by
  constructor <;> rfl

/-- Claim C9: the normalization pass of `write_todos` is idempotent:
validating its own output changes nothing. -/
theorem claim_c9_normalize_idempotent (l : List Value) :
    validateTodos (validateTodos l) = validateTodos l := by
  rw [validateTodos_eq_filterMap, validateTodos_eq_filterMap]
  induction l with
  | nil => rfl
  | cons v rest ih =>
    rw [List.filterMap_cons]
    cases hv : spec_normalize_entry v with
    | none => simpa using ih
    | some t => simp only [List.filterMap_cons, spec_entry_fix v t hv, ih]

/-- Claim C10: for every non-empty task list, the formatted output is the
header line `"Todo List:"`, the task lines, then a blank line (from the
embedded `"\n"`) and a final line of `"Summary: "` followed by the counts
phrase. -/
theorem claim_c10_output_structure (todos : List Value) (h : todos ≠ []) :
    _format_todos todos =
      "Todo List:" ++ "\n" ++ joinLines (formatLines todos) ++ "\n" ++ "\n"
        ++ "Summary: " ++ countsPhrase todos := by
  have hne : formatLines todos ≠ [] := by
    cases todos with
    | nil => exact absurd rfl h
    | cons a t => simp [formatLines, formatLinesFrom]
  have hemp : todos.isEmpty = false := by
    cases todos with
    | nil => exact absurd rfl h
    | cons a t => rfl
  rw [_format_todos, hemp]
  simp only [Bool.false_eq_true, if_false, List.cons_append]
  rw [joinLines_cons _ _ (by simp), joinLines_append_last _ _ hne]
  simp only [String.append_assoc]

/-- Witness for claim C10 on a concrete one-task list. -/
theorem claim_c10_witness :
    ([Value.vDict [("content", Value.vStr "A"), ("activeForm", Value.vStr "A"),
        ("status", Value.vStr "pending")]] : List Value) ≠ []
    ∧ _format_todos [Value.vDict [("content", Value.vStr "A"), ("activeForm", Value.vStr "A"),
        ("status", Value.vStr "pending")]]
      = "Todo List:" ++ "\n"
        ++ joinLines (formatLines [Value.vDict [("content", Value.vStr "A"),
            ("activeForm", Value.vStr "A"), ("status", Value.vStr "pending")]])
        ++ "\n" ++ "\n" ++ "Summary: "
        ++ countsPhrase [Value.vDict [("content", Value.vStr "A"),
            ("activeForm", Value.vStr "A"), ("status", Value.vStr "pending")]] :=
  ⟨by simp, claim_c10_output_structure
    [Value.vDict [("content", Value.vStr "A"), ("activeForm", Value.vStr "A"),
      ("status", Value.vStr "pending")]] (by simp)⟩
